import Mathlib

/-!
Shallow embedding of `scripts/fetch_essays.py`, a single-file pipeline that
resolves candidate feed URLs, fetches one of them with retries, and parses
the RSS/Atom payload into a list of post records.

Python string primitives are modelled on `String.data` (a `List Char`):
`url.endswith(s)`, `url[:-n]`, `"x" in s`, `str.strip`, `str.lower`,
`str.replace`, `str.split('/')` and `"\n".join(...)`.
Network attempts are an oracle `att : Nat → Except String String` giving the
outcome of each GET attempt (payload or the message of the caught
`URLError`/`HTTPError`); XML documents are an explicit element tree in which
a namespaced tag is the ElementTree string `{uri}local`.
-/

/-- Python `url.endswith(s)`. -/
def pyEndsWith (url s : String) : Bool := decide (s.data <:+ url.data)

/-- Python `s.strip()` (drop leading and trailing whitespace). -/
def pyStrip (s : String) : String :=
  ⟨((s.data.dropWhile Char.isWhitespace).reverse.dropWhile
      Char.isWhitespace).reverse⟩

/-- Python `s.lower()`. -/
def pyLower (s : String) : String := ⟨s.data.map Char.toLower⟩

/-- Python `s.replace(a, b)` for one-character `a` and `b` (the only use in
the source is `title.lower().replace(' ', '-')`). -/
def pyReplaceChar (s : String) (a b : Char) : String :=
  ⟨s.data.map (fun c => if c = a then b else c)⟩

/-- Splitting loop for `pySplit`: keeps empty pieces, like Python `split`
with an explicit separator. -/
def pySplitGo (sep : Char) : List Char → List (List Char)
  | [] => [[]]
  | c :: rest =>
    match pySplitGo sep rest with
    | [] => [[c]]
    | g :: gs => if c = sep then [] :: g :: gs else (c :: g) :: gs

/-- Python `s.split(sep)` for a one-character separator (the source splits
on `'/'`). -/
def pySplit (s : String) (sep : Char) : List String :=
  (pySplitGo sep s.data).map (fun l => ⟨l⟩)

/-- Python `url[:-n]` for `n ≥ 1` (drop the last `n` characters). -/
def pyDropRight (url : String) (n : Nat) : String :=
  ⟨url.data.take (url.data.length - n)⟩

/-- Python `x in s` (substring containment test). -/
def pyContains (s x : String) : Bool := decide (x.data <:+: s.data)

/-- Python `"\n".join(errors)`. -/
def joinNL : List String → String
  | [] => ""
  | [e] => e
  | e :: rest => e ++ "\n" ++ joinNL rest

/-- Model of `FEED_VARIANTS`: the format templates `"{base}/feed"`, `"{base}/feed/"`,
`"{base}/latest/feed"`, `"{base}/rss"`, each modelled as the function
`base ↦ template.format(base=base)`. -/
def FEED_VARIANTS : List (String → String) :=
  [fun base => base ++ "/feed",
   fun base => base ++ "/feed/",
   fun base => base ++ "/latest/feed",
   fun base => base ++ "/rss"]

/-- The suffix list tried by `normalize_feed_url`, in source order. -/
def KNOWN_SUFFIXES : List String := ["/feed", "/feed/", "/latest/feed", "/rss"]

/-- Inner loop of `normalize_feed_url`: first matching suffix is stripped. -/
def normalizeGo (url : String) : List String → String
  | [] => url
  | s :: rest =>
    if pyEndsWith url s then pyDropRight url s.length else normalizeGo url rest

/-- Model of `normalize_feed_url(url)`: remove common RSS suffixes to get the base URL. -/
def normalize_feed_url (url : String) : String :=
  normalizeGo url KNOWN_SUFFIXES

/-- Trace of one `fetch_with_retries` call: the final outcome (payload or
raised-error message), the 0-based indices of the attempts actually made, and
the sleeps performed (in units of `delay`-seconds), in order. -/
structure FetchTrace where
  result : Except String String
  attempts : List Nat
  waits : List Nat
deriving Repr

/-- Loop body of `fetch_with_retries` over the remaining attempt indices
(`for attempt in range(max_retries)`), carrying `last_error`.  Attempt `i > 0`
sleeps `delay * 2 ** (i - 1)` first; a successful attempt returns at once; when
the range is exhausted the last error is raised (or the `RuntimeError` message
when no attempt ran). -/
def fwrGo (att : Nat → Except String String) (url : String) (m delay : Nat) :
    List Nat → Option String → FetchTrace
  | [], last =>
    { result := .error (last.getD
        ("Failed to fetch " ++ url ++ " after " ++ toString m ++ " attempts")),
      attempts := [], waits := [] }
  | i :: rest, _ =>
    let w := if 0 < i then [delay * 2 ^ (i - 1)] else []
    match att i with
    | .ok payload => { result := .ok payload, attempts := [i], waits := w }
    | .error e =>
      let t := fwrGo att url m delay rest (some e)
      { result := t.result, attempts := i :: t.attempts, waits := w ++ t.waits }

/-- Model of `fetch_with_retries(url, max_retries, delay)`, driven by the attempt
oracle `att`. -/
def fetch_with_retries (att : Nat → Except String String) (url : String)
    (max_retries delay : Nat) : FetchTrace :=
  fwrGo att url max_retries delay (List.range max_retries) none

/-- The candidate URL list produced inside `fetch_feed`:
each variant template formatted against the normalized base URL. -/
def candidate_urls (feed_url : String) : List String :=
  FEED_VARIANTS.map (fun v => v (normalize_feed_url feed_url))

/-- Loop of `fetch_feed` over the candidate URLs, accumulating
`errors` entries `f"{url}: {str(e)}"`; returns the first successful payload
together with the list of candidate URLs actually tried.  Each candidate is
fetched by `fetch_with_retries` with the source defaults `max_retries=3`,
`delay=1`. -/
def ffGo (att : String → Nat → Except String String) :
    List String → List String → Except String String × List String
  | [], errs => (.error ("All feed variants failed:\n" ++ joinNL errs), [])
  | url :: rest, errs =>
    match (fetch_with_retries (att url) url 3 1).result with
    | .ok payload => (.ok payload, [url])
    | .error e =>
      let r := ffGo att rest (errs ++ [url ++ ": " ++ e])
      (r.1, url :: r.2)

/-- Model of `fetch_feed(feed_url)`: try the feed URL variants in order and return the
first successful response, with the trace of candidates tried. -/
def fetch_feed (att : String → Nat → Except String String) (feed_url : String) :
    Except String String × List String :=
  ffGo att (candidate_urls feed_url) []

/-- An ElementTree element: tag (a namespaced tag is the string
`{uri}local`), optional text, and child elements in document order. -/
inductive XNode : Type where
  | node (tag : String) (text : Option String) (children : List XNode)

def XNode.tag : XNode → String
  | .node t _ _ => t

def XNode.text : XNode → Option String
  | .node _ x _ => x

def XNode.children : XNode → List XNode
  | .node _ _ c => c

mutual

/-- All proper descendants of an element in document order:
ElementTree `element.findall('.//…')` searches this list. -/
def XNode.descendants : XNode → List XNode
  | .node _ _ cs => XNode.descList cs

def XNode.descList : List XNode → List XNode
  | [] => []
  | c :: rest => c :: XNode.descendants c ++ XNode.descList rest

end

/-- ElementTree `root.findall('.//' + tag)`: all descendants with the given tag,
in document order. -/
def findall (root : XNode) (tag : String) : List XNode :=
  root.descendants.filter (fun n => n.tag = tag)

/-- ElementTree `node.find(tag)`: first direct child with the given tag. -/
def findChild (node : XNode) (tag : String) : Option XNode :=
  node.children.find? (fun c => c.tag = tag)

/-- Model of `text(node, tag)`: `el.text.strip() if el is not None and el.text else ''`
(an absent child, absent text, or empty text all give `''`). -/
def text (node : XNode) (tag : String) : String :=
  match findChild node tag with
  | some el =>
    match el.text with
    | some t => if t = "" then "" else pyStrip t
    | none => ""
  | none => ""

/-- Model of `slug_from(link, title)`. -/
def slug_from (link title : String) : String :=
  if link = "" then pyReplaceChar (pyLower title) ' ' '-'
  else
    let parts := (pySplit link '/').filter (fun p => ¬ p = "")
    match parts.getLast? with
    | some p => p
    | none => pyReplaceChar (pyLower title) ' ' '-'

/-- The tag test of the content scan in `parse_rss`:
`any(x in child.tag.lower() for x in ['content:encoded', 'content',
'description'])`. -/
def contentLike (tag : String) : Bool :=
  pyContains (pyLower tag) "content:encoded"
    || pyContains (pyLower tag) "content"
    || pyContains (pyLower tag) "description"

/-- One output record of the pipeline. -/
structure Post where
  slug : String
  title : String
  link : String
  date : String
  html : String
deriving Repr, DecidableEq

/-- The ElementTree tag of an Atom `entry` element. -/
def atomEntryTag : String := "\x7bhttp://www.w3.org/2005/Atom\x7dentry"

/-- The node list `parse_rss` iterates over: RSS `item` descendants,
falling back to namespaced Atom `entry` descendants when there are none. -/
def selectedItems (root : XNode) : List XNode :=
  let items := findall root "item"
  if items.isEmpty then findall root atomEntryTag else items

/-- The loop body of `parse_rss`: build one record from one item node. -/
def extractItem (item : XNode) : Post :=
  let title := text item "title"
  let link := text item "link"
  let pubDate := if text item "pubDate" = "" then text item "published"
    else text item "pubDate"
  let content :=
    match item.children.find? (fun child => contentLike child.tag) with
    | some child => child.text.getD ""
    | none => ""
  { slug := slug_from link title, title := title, link := link,
    date := pubDate, html := content }

/-- Model of `parse_rss(raw)` on the already-parsed element tree: errors are the
`ValueError` messages raised by the source. -/
def parse_rss (root : XNode) : Except String (List Post) :=
  let items := selectedItems root
  if items.isEmpty then .error "No items/entries found in feed"
  else
    let out := items.map extractItem
    if out.isEmpty then .error "Found feed items but couldn't extract post data"
    else .ok out

/-- The fetch-then-parse pipeline of `main` (`raw = fetch_feed(args.feed)`
then `posts = parse_rss(raw)`), with `doc` the XML reading of a payload.
Returns the outcome together with the candidate URLs fetched. -/
def run_pipeline (att : String → Nat → Except String String)
    (doc : String → XNode) (feed_url : String) :
    Except String (List Post) × List String :=
  let r := fetch_feed att feed_url
  match r.1 with
  | .ok raw => (parse_rss (doc raw), r.2)
  | .error e => (.error e, r.2)

/-- Accessor used to state claims: the raw text of the first direct child
with the given tag (`None` when the child or its text is absent). -/
def childText (n : XNode) (tag : String) : Option String :=
  (findChild n tag).bind XNode.text

/-- Accessor used to state claims: the raw text of the first child selected
by the content scan of `parse_rss`. -/
def firstContentText (n : XNode) : Option String :=
  (n.children.find? (fun child => contentLike child.tag)).bind XNode.text

/-- Oracle for witnesses: every fetch attempt of every URL fails with the
message `boom`, except URL `https://w.com/feed/` which succeeds at once. -/
def attW : String → Nat → Except String String :=
  fun u _ => if u = "https://w.com/feed/" then .ok "PAY" else .error "boom"

/-- Oracle for witnesses: every fetch attempt of every URL fails with `boom`. -/
def attFail : String → Nat → Except String String := fun _ _ => .error "boom"

/-- Oracle for the C4 witness: attempts 0 and 1 fail, attempt 2 succeeds. -/
def attRetry : Nat → Except String String :=
  fun i => if i = 2 then .ok "P" else .error ("E" ++ toString i)

/-- Concrete RSS document used by witnesses: two items, each with `title`,
`link`, `pubDate` and a content-like child. -/
def docRss : XNode :=
  .node "rss" none [.node "channel" none [
    .node "item" none
      [.node "title" (some " Hi ") [],
       .node "link" (some "https://a/p/x") [],
       .node "pubDate" (some "d1") [],
       .node "\x7bcontent\x7dencoded" (some "<p>c</p>") []],
    .node "item" none
      [.node "title" (some "T2") [],
       .node "link" (some "https://a/p/y") [],
       .node "pubDate" (some "d2") [],
       .node "description" (some "c2") []]]]

/-- Concrete Atom document used by witnesses: one namespace-qualified `entry`
with namespace-qualified children. -/
def docAtom : XNode :=
  .node "feed" none
    [.node "\x7bhttp://www.w3.org/2005/Atom\x7dentry" none
      [.node "\x7bhttp://www.w3.org/2005/Atom\x7dtitle" (some "T") [],
       .node "\x7bhttp://www.w3.org/2005/Atom\x7dcontent" (some "CC") []]]

/-- Concrete document with neither `item` nor Atom `entry` elements. -/
def docEmpty : XNode := .node "feed" none [.node "x" none []]

/-! ## Helper lemmas -/

theorem str_ext {a b : String} (h : a.data = b.data) : a = b := by
  cases a; cases b; exact congrArg String.mk h

theorem pyEndsWith_iff (url s : String) :
    pyEndsWith url s = true ↔ ∃ p : String, url = p ++ s := by
  unfold pyEndsWith
  rw [decide_eq_true_eq]
  constructor
  · rintro ⟨t, ht⟩
    refine ⟨⟨t⟩, str_ext ?_⟩
    rw [String.data_append]
    exact ht.symm
  · rintro ⟨p, rfl⟩
    exact ⟨p.data, (String.data_append p s).symm⟩

theorem pyDropRight_append (p s : String) : pyDropRight (p ++ s) s.length = p := by
  apply str_ext
  show (p ++ s).data.take ((p ++ s).data.length - s.length) = p.data
  rw [String.data_append, show s.length = s.data.length from rfl,
    List.length_append, Nat.add_sub_cancel]
  exact List.take_left p.data s.data

theorem normalizeGo_spec (url : String) (L : List String) :
    (∃ s ∈ L, pyEndsWith url s = true ∧ normalizeGo url L ++ s = url) ∨
    ((∀ s ∈ L, pyEndsWith url s = false) ∧ normalizeGo url L = url) := by
  induction L with
  | nil => exact Or.inr ⟨by simp, rfl⟩
  | cons s rest ih =>
    by_cases h : pyEndsWith url s = true
    · left
      refine ⟨s, by simp, h, ?_⟩
      have hgo : normalizeGo url (s :: rest) = pyDropRight url s.length := by
        simp [normalizeGo, h]
      rw [hgo]
      obtain ⟨p, rfl⟩ := (pyEndsWith_iff url s).1 h
      rw [pyDropRight_append]
    · have h' : pyEndsWith url s = false := by
        simpa using h
      have hgo : normalizeGo url (s :: rest) = normalizeGo url rest := by
        simp [normalizeGo, h']
      rcases ih with ⟨s', hs', he, hrec⟩ | ⟨hall, hid⟩
      · exact Or.inl ⟨s', by simp [hs'], he, by rw [hgo]; exact hrec⟩
      · refine Or.inr ⟨?_, by rw [hgo, hid]⟩
        intro s'' hs''
        rcases List.mem_cons.1 hs'' with rfl | hmem
        · exact h'
        · exact hall s'' hmem

/-! ## Claim theorems -/

/-- C3: for every input URL ending in one of the known suffixes `/feed`,
`/feed/`, `/latest/feed`, `/rss`, `normalize_feed_url` returns the input with
an ending known suffix removed exactly once (appending that suffix back
restores the input verbatim); for every URL ending in none of them it returns
the input unchanged. -/
theorem normalize_feed_url_strips_suffix (url : String) :
    ((∃ s ∈ KNOWN_SUFFIXES, ∃ p : String, url = p ++ s) →
      ∃ s ∈ KNOWN_SUFFIXES, normalize_feed_url url ++ s = url) ∧
    ((∀ s ∈ KNOWN_SUFFIXES, ∀ p : String, url ≠ p ++ s) →
      normalize_feed_url url = url) := by
  constructor
  · intro hex
    rcases normalizeGo_spec url KNOWN_SUFFIXES with ⟨s, hs, _, hrec⟩ | ⟨hall, _⟩
    · exact ⟨s, hs, hrec⟩
    · obtain ⟨s, hs, p, rfl⟩ := hex
      have ht := (pyEndsWith_iff (p ++ s) s).2 ⟨p, rfl⟩
      rw [hall s hs] at ht
      cases ht
  · intro hnone
    rcases normalizeGo_spec url KNOWN_SUFFIXES with ⟨s, hs, he, _⟩ | ⟨_, hid⟩
    · obtain ⟨p, hp⟩ := (pyEndsWith_iff url s).1 he
      exact absurd hp (hnone s hs p)
    · exact hid

/-- Witness for C3 at the concrete input `https://x.substack.com/feed`. -/
theorem normalize_feed_url_strips_suffix_witness :
    (∃ s ∈ KNOWN_SUFFIXES,
      ∃ p : String, ("https://x.substack.com/feed" : String) = p ++ s) ∧
    ∃ s ∈ KNOWN_SUFFIXES,
      normalize_feed_url "https://x.substack.com/feed" ++ s =
        "https://x.substack.com/feed" := by
  refine ⟨⟨"/feed", by decide, "https://x.substack.com", rfl⟩, ?_⟩
  exact (normalize_feed_url_strips_suffix "https://x.substack.com/feed").1
    ⟨"/feed", by decide, "https://x.substack.com", rfl⟩

theorem ffGo_skip_failures (att : String → Nat → Except String String)
    (u p : String) (L2 : List String)
    (hu : (fetch_with_retries (att u) u 3 1).result = .ok p) :
    ∀ L1 errs : List String,
      (∀ url ∈ L1, ∃ e, (fetch_with_retries (att url) url 3 1).result = .error e) →
      ffGo att (L1 ++ u :: L2) errs = (.ok p, L1 ++ [u]) := by
  intro L1
  induction L1 with
  | nil =>
    intro errs _
    show ffGo att (u :: L2) errs = _
    simp only [ffGo, hu]
    rfl
  | cons url L1' ih =>
    intro errs hfail
    obtain ⟨e, he⟩ := hfail url (by simp)
    show ffGo att (url :: (L1' ++ u :: L2)) errs = _
    simp only [ffGo, he]
    rw [ih (errs ++ [url ++ ": " ++ e]) (fun url' h' => hfail url' (by simp [h']))]
    rfl

/-- C2: for every feed URL, exactly four candidate URLs are generated, in the
fixed order base + `/feed`, base + `/feed/`, base + `/latest/feed`,
base + `/rss`; and whenever the candidate list splits as `L1 ++ u :: L2` with
every candidate in `L1` failing and `u` succeeding with payload `p`,
`fetch_feed` returns exactly that payload, having fetched only the failing
prefix and `u` — the later candidates are never consulted. -/
theorem fetch_feed_first_success (att : String → Nat → Except String String)
    (feed_url : String) :
    candidate_urls feed_url =
      [normalize_feed_url feed_url ++ "/feed",
       normalize_feed_url feed_url ++ "/feed/",
       normalize_feed_url feed_url ++ "/latest/feed",
       normalize_feed_url feed_url ++ "/rss"] ∧
    ∀ (L1 : List String) (u : String) (L2 : List String) (p : String),
      candidate_urls feed_url = L1 ++ u :: L2 →
      (∀ url ∈ L1, ∃ e, (fetch_with_retries (att url) url 3 1).result = .error e) →
      (fetch_with_retries (att u) u 3 1).result = .ok p →
      fetch_feed att feed_url = (.ok p, L1 ++ [u]) := by
  refine ⟨rfl, ?_⟩
  intro L1 u L2 p hdec hfail hok
  unfold fetch_feed
  rw [hdec]
  exact ffGo_skip_failures att u p L2 hok L1 [] hfail

/-- Witness for C2: with `attW`, the first candidate fails, the second
succeeds, and `fetch_feed` returns its payload having tried only those two. -/
theorem fetch_feed_first_success_witness :
    candidate_urls "https://w.com" =
      ["https://w.com/feed", "https://w.com/feed/",
       "https://w.com/latest/feed", "https://w.com/rss"] ∧
    fetch_feed attW "https://w.com" =
      (.ok "PAY", ["https://w.com/feed", "https://w.com/feed/"]) := by
  have h := fetch_feed_first_success attW "https://w.com"
  refine ⟨h.1, ?_⟩
  have h2 := h.2 ["https://w.com/feed"] "https://w.com/feed/"
    ["https://w.com/latest/feed", "https://w.com/rss"] "PAY" rfl
    (by
      intro url hurl
      rcases List.mem_singleton.1 hurl with rfl
      exact ⟨"boom", rfl⟩)
    rfl
  exact h2

/-- C5: when all four candidate URLs exhaust their retries and fail,
`fetch_feed` fails with a single aggregate error whose message contains, for
each of the four candidates, the fragment `candidate ++ ": " ++ reason`. -/
theorem fetch_feed_aggregate_error (att : String → Nat → Except String String)
    (feed_url e0 e1 e2 e3 : String)
    (h0 : (fetch_with_retries (att (normalize_feed_url feed_url ++ "/feed"))
        (normalize_feed_url feed_url ++ "/feed") 3 1).result = .error e0)
    (h1 : (fetch_with_retries (att (normalize_feed_url feed_url ++ "/feed/"))
        (normalize_feed_url feed_url ++ "/feed/") 3 1).result = .error e1)
    (h2 : (fetch_with_retries (att (normalize_feed_url feed_url ++ "/latest/feed"))
        (normalize_feed_url feed_url ++ "/latest/feed") 3 1).result = .error e2)
    (h3 : (fetch_with_retries (att (normalize_feed_url feed_url ++ "/rss"))
        (normalize_feed_url feed_url ++ "/rss") 3 1).result = .error e3) :
    ∃ msg : String,
      fetch_feed att feed_url =
        (.error msg,
         [normalize_feed_url feed_url ++ "/feed",
          normalize_feed_url feed_url ++ "/feed/",
          normalize_feed_url feed_url ++ "/latest/feed",
          normalize_feed_url feed_url ++ "/rss"]) ∧
      ∀ line ∈ [normalize_feed_url feed_url ++ "/feed" ++ ": " ++ e0,
                normalize_feed_url feed_url ++ "/feed/" ++ ": " ++ e1,
                normalize_feed_url feed_url ++ "/latest/feed" ++ ": " ++ e2,
                normalize_feed_url feed_url ++ "/rss" ++ ": " ++ e3],
        ∃ pre post : String, msg = pre ++ line ++ post := by
  refine ⟨"All feed variants failed:\n" ++
    joinNL [normalize_feed_url feed_url ++ "/feed" ++ ": " ++ e0,
            normalize_feed_url feed_url ++ "/feed/" ++ ": " ++ e1,
            normalize_feed_url feed_url ++ "/latest/feed" ++ ": " ++ e2,
            normalize_feed_url feed_url ++ "/rss" ++ ": " ++ e3], ?_, ?_⟩
  · unfold fetch_feed candidate_urls FEED_VARIANTS
    simp only [List.map]
    simp only [ffGo, h0, h1, h2, h3]
    simp
  · intro line hline
    fin_cases hline
    · exact ⟨"All feed variants failed:\n",
        "\n" ++ (normalize_feed_url feed_url ++ "/feed/" ++ ": " ++ e1) ++
        "\n" ++ (normalize_feed_url feed_url ++ "/latest/feed" ++ ": " ++ e2) ++
        "\n" ++ (normalize_feed_url feed_url ++ "/rss" ++ ": " ++ e3),
        by simp [joinNL, String.append_assoc]⟩
    · exact ⟨"All feed variants failed:\n" ++
        (normalize_feed_url feed_url ++ "/feed" ++ ": " ++ e0) ++ "\n",
        "\n" ++ (normalize_feed_url feed_url ++ "/latest/feed" ++ ": " ++ e2) ++
        "\n" ++ (normalize_feed_url feed_url ++ "/rss" ++ ": " ++ e3),
        by simp [joinNL, String.append_assoc]⟩
    · exact ⟨"All feed variants failed:\n" ++
        (normalize_feed_url feed_url ++ "/feed" ++ ": " ++ e0) ++ "\n" ++
        (normalize_feed_url feed_url ++ "/feed/" ++ ": " ++ e1) ++ "\n",
        "\n" ++ (normalize_feed_url feed_url ++ "/rss" ++ ": " ++ e3),
        by simp [joinNL, String.append_assoc]⟩
    · exact ⟨"All feed variants failed:\n" ++
        (normalize_feed_url feed_url ++ "/feed" ++ ": " ++ e0) ++ "\n" ++
        (normalize_feed_url feed_url ++ "/feed/" ++ ": " ++ e1) ++ "\n" ++
        (normalize_feed_url feed_url ++ "/latest/feed" ++ ": " ++ e2) ++ "\n",
        "", by simp [joinNL, String.append_assoc]⟩

/-- Witness for C5: with `attFail` and feed URL `https://w.com`, all four
candidates fail and the aggregate message mentions each candidate with its
reason. -/
theorem fetch_feed_aggregate_error_witness :
    ∃ msg : String,
      fetch_feed attFail "https://w.com" =
        (.error msg,
         ["https://w.com/feed", "https://w.com/feed/",
          "https://w.com/latest/feed", "https://w.com/rss"]) ∧
      ∀ line ∈ ["https://w.com/feed" ++ ": " ++ "boom",
                "https://w.com/feed/" ++ ": " ++ "boom",
                "https://w.com/latest/feed" ++ ": " ++ "boom",
                "https://w.com/rss" ++ ": " ++ "boom"],
        ∃ pre post : String, msg = pre ++ line ++ post :=
  fetch_feed_aggregate_error attFail "https://w.com" "boom" "boom" "boom" "boom"
    rfl rfl rfl rfl

theorem fwrGo_attempts_length (att : Nat → Except String String)
    (url : String) (m d : Nat) :
    ∀ (l : List Nat) (last : Option String),
      (fwrGo att url m d l last).attempts.length ≤ l.length := by
  intro l
  induction l with
  | nil => intro last; simp [fwrGo]
  | cons i rest ih =>
    intro last
    cases hai : att i with
    | ok p => simp [fwrGo, hai]
    | error e =>
      simp only [fwrGo, hai, List.length_cons]
      have := ih (some e)
      omega

theorem fwrGo_all_error (att : Nat → Except String String) (url : String)
    (m d : Nat) :
    ∀ (n s : Nat) (last : Option String), 0 < n →
      (∀ j, s ≤ j → j < s + n → ∀ p, att j ≠ .ok p) →
      ∃ e, att (s + n - 1) = .error e ∧
        fwrGo att url m d (List.range' s n) last =
          { result := .error e, attempts := List.range' s n,
            waits := (List.range' s n).filterMap
              (fun i => if 0 < i then some (d * 2 ^ (i - 1)) else none) } := by
  intro n
  induction n with
  | zero => intro s last h; cases h
  | succ n' ih =>
    intro s last _ hfail
    cases has : att s with
    | ok p => exact absurd has (hfail s le_rfl (by omega) p)
    | error e =>
      rcases Nat.eq_zero_or_pos n' with rfl | hpos
      · refine ⟨e, by simpa using has, ?_⟩
        rw [List.range'_succ]
        by_cases hs : 0 < s <;> simp [fwrGo, has, hs]
      · obtain ⟨e', he', heq⟩ := ih (s + 1) (some e) hpos
          (fun j h1 h2 p => hfail j (by omega) (by omega) p)
        refine ⟨e', ?_, ?_⟩
        · have harith : s + (n' + 1) - 1 = s + 1 + n' - 1 := by omega
          rw [harith]
          exact he'
        · rw [List.range'_succ]
          simp only [fwrGo, has]
          rw [heq]
          by_cases hs : 0 < s <;> simp [hs, List.filterMap_cons]

theorem fwrGo_first_ok (att : Nat → Except String String) (url : String)
    (m d : Nat) :
    ∀ (n s : Nat) (last : Option String) (k : Nat) (p : String),
      s ≤ k → k < s + n → att k = .ok p →
      (∀ j, s ≤ j → j < k → ∀ q, att j ≠ .ok q) →
      fwrGo att url m d (List.range' s n) last =
        { result := .ok p, attempts := List.range' s (k - s + 1),
          waits := (List.range' s (k - s + 1)).filterMap
            (fun i => if 0 < i then some (d * 2 ^ (i - 1)) else none) } := by
  intro n
  induction n with
  | zero => intro s last k p h1 h2; omega
  | succ n' ih =>
    intro s last k p hsk hk hok hprev
    rcases Nat.eq_or_lt_of_le hsk with rfl | hlt
    · rw [List.range'_succ]
      have hss : s - s + 1 = 1 := by omega
      rw [hss, show List.range' s 1 = [s] from rfl]
      by_cases hs : 0 < s <;> simp [fwrGo, hok, hs]
    · cases has : att s with
      | ok q => exact absurd has (hprev s le_rfl hlt q)
      | error e =>
        rw [List.range'_succ]
        simp only [fwrGo, has]
        rw [ih (s + 1) (some e) k p (by omega) (by omega) hok
          (fun j h1 h2 q => hprev j (by omega) h2 q)]
        have harith : k - (s + 1) + 1 = k - s := by omega
        have harith2 : k - s + 1 = (k - s) + 1 := rfl
        rw [harith, harith2, List.range'_succ]
        by_cases hs : 0 < s <;> simp [hs, List.filterMap_cons]

theorem waits_closed (d m : Nat) (hm : 0 < m) :
    (List.range' 0 m).filterMap
      (fun i => if 0 < i then some (d * 2 ^ (i - 1)) else none) =
    (List.range (m - 1)).map (fun j => d * 2 ^ j) := by
  obtain ⟨k, rfl⟩ : ∃ k, m = k + 1 := ⟨m - 1, by omega⟩
  simp only [Nat.add_sub_cancel]
  rw [List.range'_succ, List.range'_eq_map_range]
  rw [List.filterMap_cons, List.filterMap_map]
  have hfun : ((fun i => if 0 < i then some (d * 2 ^ (i - 1)) else none) ∘
      (fun j => 1 + j)) = some ∘ (fun j => d * 2 ^ j) := by
    funext j
    simp [Function.comp]
  rw [hfun, List.filterMap_eq_map]
  simp

/-- C4: with `max_retries = m ≥ 1`, `fetch_with_retries` makes at most `m`
attempts; before retry number `i` (the attempt with 0-based index `i ≥ 1`) it
waits `delay * 2 ^ (i - 1)`; if the first successful attempt is attempt `k`,
it returns that payload having made exactly the attempts `0 … k` (none after
the success); and when every attempt fails it raises the error observed on
the last attempt, `m - 1`. -/
theorem fetch_with_retries_spec (att : Nat → Except String String)
    (url : String) (m d : Nat) (hm : 1 ≤ m) :
    ((fetch_with_retries att url m d).attempts.length ≤ m) ∧
    (∀ k p, k < m → att k = .ok p → (∀ j, j < k → ∀ q, att j ≠ .ok q) →
      fetch_with_retries att url m d =
        { result := .ok p, attempts := List.range (k + 1),
          waits := (List.range k).map (fun j => d * 2 ^ j) }) ∧
    ((∀ j, j < m → ∀ q, att j ≠ .ok q) →
      ∃ e, att (m - 1) = .error e ∧
        fetch_with_retries att url m d =
          { result := .error e, attempts := List.range m,
            waits := (List.range (m - 1)).map (fun j => d * 2 ^ j) }) := by
  refine ⟨?_, ?_, ?_⟩
  · have h := fwrGo_attempts_length att url m d (List.range m) none
    simpa using h
  · intro k p hk hok hprev
    unfold fetch_with_retries
    rw [List.range_eq_range']
    rw [fwrGo_first_ok att url m d m 0 none k p (Nat.zero_le k) (by omega) hok
      (fun j h1 h2 q => hprev j h2 q)]
    have h1 : k - 0 + 1 = k + 1 := by omega
    rw [h1, waits_closed d (k + 1) (by omega), Nat.add_sub_cancel,
      ← List.range_eq_range']
  · intro hfail
    obtain ⟨e, he, heq⟩ := fwrGo_all_error att url m d m 0 none (by omega)
      (fun j h1 h2 p => hfail j (by omega) p)
    refine ⟨e, by simpa using he, ?_⟩
    unfold fetch_with_retries
    rw [List.range_eq_range', heq, waits_closed d m (by omega),
      ← List.range_eq_range']

/-- Witness for C4: with `attRetry`, three attempts are made, the sleeps are
`1` and `2` seconds, and the third attempt's payload is returned. -/
theorem fetch_with_retries_spec_witness :
    fetch_with_retries attRetry "u" 3 1 =
      { result := .ok "P", attempts := [0, 1, 2], waits := [1, 2] } := by
  have h := (fetch_with_retries_spec attRetry "u" 3 1 (by omega)).2.1 2 "P"
    (by omega) rfl
    (by
      intro j hj q hq
      interval_cases j <;> exact Except.noConfusion hq)
  rw [h]
  rfl

theorem selectedItems_of_items (root : XNode) (hne : findall root "item" ≠ []) :
    selectedItems root = findall root "item" := by
  unfold selectedItems
  rw [if_neg]
  simpa [List.isEmpty_iff] using hne

theorem parse_rss_eq_map (root : XNode) (hne : selectedItems root ≠ []) :
    parse_rss root = .ok ((selectedItems root).map extractItem) := by
  have h1 : (selectedItems root).isEmpty = false := by
    simpa [List.isEmpty_iff] using hne
  have h2 : ((selectedItems root).map extractItem).isEmpty = false := by
    simp [List.isEmpty_iff]
    exact hne
  simp [parse_rss, h1, h2]

theorem pyStrip_empty : pyStrip "" = "" := rfl

theorem text_of_childText_some (n : XNode) (tag t : String)
    (h : childText n tag = some t) (hne : t ≠ "") : text n tag = pyStrip t := by
  rcases Option.bind_eq_some.1 h with ⟨el, hel, htext⟩
  simp [text, hel, htext, hne]

theorem extractItem_html_of_content (it : XNode) (ct : String)
    (h : firstContentText it = some ct) : (extractItem it).html = ct := by
  rcases Option.bind_eq_some.1 h with ⟨c, hc, hctext⟩
  simp [extractItem, hc, hctext]

/-- C1: for a document whose `item` descendants each carry a `title`, `link`
and `pubDate` child with non-blank text and a content-like child with
non-empty text, `parse_rss` returns exactly one record per item, in document
order, whose `title`, `link`, `date` fields are the (stripped) child texts,
whose `html` field is the raw content text, and all four are non-empty. -/
theorem parse_rss_wellformed_rss_items (root : XNode)
    (hne : findall root "item" ≠ []) :
    ∃ posts, parse_rss root = .ok posts ∧
      posts.length = (findall root "item").length ∧
      ∀ i (hi : i < (findall root "item").length) (hip : i < posts.length)
        (tl lk pd ct : String),
        childText ((findall root "item").get ⟨i, hi⟩) "title" = some tl →
        pyStrip tl ≠ "" →
        childText ((findall root "item").get ⟨i, hi⟩) "link" = some lk →
        pyStrip lk ≠ "" →
        childText ((findall root "item").get ⟨i, hi⟩) "pubDate" = some pd →
        pyStrip pd ≠ "" →
        firstContentText ((findall root "item").get ⟨i, hi⟩) = some ct →
        ct ≠ "" →
        (posts.get ⟨i, hip⟩).title = pyStrip tl ∧
        (posts.get ⟨i, hip⟩).link = pyStrip lk ∧
        (posts.get ⟨i, hip⟩).date = pyStrip pd ∧
        (posts.get ⟨i, hip⟩).html = ct ∧
        (posts.get ⟨i, hip⟩).title ≠ "" ∧ (posts.get ⟨i, hip⟩).link ≠ "" ∧
        (posts.get ⟨i, hip⟩).date ≠ "" ∧ (posts.get ⟨i, hip⟩).html ≠ "" := by
  have hsel : selectedItems root = findall root "item" :=
    selectedItems_of_items root hne
  have hmap := parse_rss_eq_map root (by rw [hsel]; exact hne)
  refine ⟨_, hmap, by simp [hsel], ?_⟩
  intro i hi hip tl lk pd ct htl htlne hlk hlkne hpd hpdne hct hctne
  have hpost : (((selectedItems root).map extractItem).get ⟨i, hip⟩) =
      extractItem ((findall root "item").get ⟨i, hi⟩) := by
    simp [hsel]
  rw [hpost]
  have htlne' : tl ≠ "" := fun h => htlne (by rw [h]; exact pyStrip_empty)
  have hlkne' : lk ≠ "" := fun h => hlkne (by rw [h]; exact pyStrip_empty)
  have hpdne' : pd ≠ "" := fun h => hpdne (by rw [h]; exact pyStrip_empty)
  have ht : text ((findall root "item").get ⟨i, hi⟩) "title" = pyStrip tl :=
    text_of_childText_some _ _ _ htl htlne'
  have hl : text ((findall root "item").get ⟨i, hi⟩) "link" = pyStrip lk :=
    text_of_childText_some _ _ _ hlk hlkne'
  have hp : text ((findall root "item").get ⟨i, hi⟩) "pubDate" = pyStrip pd :=
    text_of_childText_some _ _ _ hpd hpdne'
  have hh := extractItem_html_of_content _ _ hct
  simp only [List.get_eq_getElem] at ht hl hp
  refine ⟨?_, ?_, ?_, ?_, ?_, ?_, ?_, ?_⟩
  · simpa [extractItem] using ht
  · simpa [extractItem] using hl
  · simp [extractItem, hp, hpdne]
  · exact hh
  · simpa [extractItem, ht] using htlne
  · simpa [extractItem, hl] using hlkne
  · simp [extractItem, hp, hpdne]
  · rw [hh]; exact hctne

/-- C6: a document with zero `item` elements but `N ≥ 1` Atom `entry`
elements takes the Atom fallback path and yields exactly `N` records. -/
theorem parse_rss_atom_fallback_count (root : XNode) (N : Nat)
    (hitem : findall root "item" = [])
    (hN : (findall root atomEntryTag).length = N) (hpos : 1 ≤ N) :
    ∃ posts, parse_rss root = .ok posts ∧ posts.length = N := by
  have hne : findall root atomEntryTag ≠ [] := by
    intro h
    rw [h] at hN
    simp at hN
    omega
  have hsel : selectedItems root = findall root atomEntryTag := by
    unfold selectedItems
    rw [if_pos (by simp [hitem])]
  refine ⟨_, parse_rss_eq_map root (by rw [hsel]; exact hne), by simp [hsel, hN]⟩

/-- Witness for C6 at the one-entry Atom document `docAtom`. -/
theorem parse_rss_atom_fallback_count_witness :
    findall docAtom "item" = [] ∧
    ∃ posts, parse_rss docAtom = .ok posts ∧ posts.length = 1 :=
  ⟨rfl, parse_rss_atom_fallback_count docAtom 1 rfl rfl (by omega)⟩

/-- C7: a document with neither `item` nor Atom `entry` elements makes
`parse_rss` fail with the `no items` error; and the parse step never adds
fetch attempts — the candidates fetched by the pipeline are exactly those
fetched by `fetch_feed`, whatever the parse outcome. -/
theorem parse_rss_no_items_error (root : XNode)
    (att : String → Nat → Except String String) (doc : String → XNode)
    (feed_url : String)
    (hitem : findall root "item" = [])
    (hatom : findall root atomEntryTag = []) :
    parse_rss root = .error "No items/entries found in feed" ∧
    (run_pipeline att doc feed_url).2 = (fetch_feed att feed_url).2 := by
  constructor
  · have hsel : selectedItems root = [] := by
      unfold selectedItems
      rw [if_pos (by simp [hitem])]
      exact hatom
    simp [parse_rss, hsel]
  · unfold run_pipeline
    cases h : (fetch_feed att feed_url).1 <;> simp [h]

/-- Witness for C7 at `docEmpty`, with the all-failing oracle `attFail`. -/
theorem parse_rss_no_items_error_witness :
    parse_rss docEmpty = .error "No items/entries found in feed" ∧
    (run_pipeline attFail (fun _ => docEmpty) "https://w.com").2 =
      (fetch_feed attFail "https://w.com").2 :=
  parse_rss_no_items_error docEmpty attFail (fun _ => docEmpty)
    "https://w.com" rfl rfl

theorem parse_rss_ok_inv (root : XNode) (posts : List Post)
    (hp : parse_rss root = .ok posts) :
    selectedItems root ≠ [] ∧ posts = (selectedItems root).map extractItem := by
  unfold parse_rss at hp
  by_cases h1 : (selectedItems root).isEmpty
  · rw [if_pos h1] at hp
    exact Except.noConfusion hp
  · rw [if_neg h1] at hp
    by_cases h2 : ((selectedItems root).map extractItem).isEmpty
    · rw [if_pos h2] at hp
      exact Except.noConfusion hp
    · rw [if_neg h2] at hp
      injection hp with h
      exact ⟨by simpa [List.isEmpty_iff] using h1, h.symm⟩

theorem find?_first_match {α : Type} (p : α → Bool) :
    ∀ (l : List α) (j : Nat) (hj : j < l.length),
      p (l.get ⟨j, hj⟩) = true →
      (∀ j' (hj' : j' < j), p (l.get ⟨j', Nat.lt_trans hj' hj⟩) = false) →
      l.find? p = some (l.get ⟨j, hj⟩) := by
  intro l
  induction l with
  | nil => intro j hj; exact absurd hj (by simp)
  | cons a rest ih =>
    intro j hj hp hprev
    cases j with
    | zero => exact List.find?_cons_of_pos rest hp
    | succ j' =>
      have ha : p a = false := hprev 0 (Nat.succ_pos j')
      rw [List.find?_cons_of_neg rest (by simp [ha])]
      exact ih j' (Nat.lt_of_succ_lt_succ hj) hp
        (fun j'' hj'' => hprev (j'' + 1) (Nat.succ_lt_succ hj''))

/-- C9: for each node that `parse_rss` iterates over, the `html` field of the
corresponding record is the text (empty when absent) of the first child in
document order whose tag satisfies the content scan, regardless of which of
the three substrings matched; and it is empty when no child matches. -/
theorem parse_rss_content_first_match (root : XNode) (posts : List Post)
    (hp : parse_rss root = .ok posts) :
    List.Forall₂ (fun item post =>
      (∀ j (hj : j < item.children.length),
        contentLike (item.children.get ⟨j, hj⟩).tag = true →
        (∀ j' (hj' : j' < j),
          contentLike (item.children.get ⟨j', Nat.lt_trans hj' hj⟩).tag
            = false) →
        post.html = ((item.children.get ⟨j, hj⟩).text).getD "") ∧
      ((∀ c ∈ item.children, contentLike c.tag = false) → post.html = ""))
      (selectedItems root) posts := by
  obtain ⟨hne, rfl⟩ := parse_rss_ok_inv root posts hp
  rw [List.forall₂_map_right_iff]
  rw [List.forall₂_same]
  intro it hit
  constructor
  · intro j hj hmatch hprev
    have hfind := find?_first_match (fun c => contentLike c.tag)
      it.children j hj hmatch hprev
    simp [extractItem, hfind]
  · intro hnone
    have hfind : it.children.find? (fun c => contentLike c.tag) = none :=
      List.find?_eq_none.2 (by intro x hx; simp [hnone x hx])
    simp [extractItem, hfind]

/-- Witness for C9 at the concrete document `docRss` and its parse output. -/
theorem parse_rss_content_first_match_witness :
    List.Forall₂ (fun (item : XNode) (post : Post) =>
      (∀ j (hj : j < item.children.length),
        contentLike (item.children.get ⟨j, hj⟩).tag = true →
        (∀ j' (hj' : j' < j),
          contentLike (item.children.get ⟨j', Nat.lt_trans hj' hj⟩).tag
            = false) →
        post.html = ((item.children.get ⟨j, hj⟩).text).getD "") ∧
      ((∀ c ∈ item.children, contentLike c.tag = false) → post.html = ""))
      (selectedItems docRss)
      [{ slug := "x", title := "Hi", link := "https://a/p/x", date := "d1",
         html := "<p>c</p>" },
       { slug := "y", title := "T2", link := "https://a/p/y", date := "d2",
         html := "c2" }] :=
  parse_rss_content_first_match docRss
    [{ slug := "x", title := "Hi", link := "https://a/p/x", date := "d1",
       html := "<p>c</p>" },
     { slug := "y", title := "T2", link := "https://a/p/y", date := "d2",
       html := "c2" }] rfl

/-- Witness for C1 at `docRss`: two records, document order, first record has
the stripped title and the raw content markup. -/
theorem parse_rss_wellformed_rss_items_witness :
    ∃ posts, parse_rss docRss = .ok posts ∧
      posts.length = (findall docRss "item").length ∧
      ∀ hip : 0 < posts.length,
        (posts.get ⟨0, hip⟩).title = pyStrip " Hi " ∧
        (posts.get ⟨0, hip⟩).html = "<p>c</p>" ∧
        (posts.get ⟨0, hip⟩).title ≠ "" := by
  obtain ⟨posts, hok, hlen, hfields⟩ :=
    parse_rss_wellformed_rss_items docRss (fun h => List.noConfusion h)
  refine ⟨posts, hok, hlen, ?_⟩
  intro hip
  have h0 := hfields 0 (by decide) hip " Hi " "https://a/p/x" "d1" "<p>c</p>"
    rfl (by decide) rfl (by decide) rfl (by decide) rfl (by decide)
  exact ⟨h0.1, h0.2.2.2.1, h0.2.2.2.2.1⟩

theorem atomNs_tag_ne (loc t : String) (h : t.data.head? ≠ some '\x7b') :
    "\x7bhttp://www.w3.org/2005/Atom\x7d" ++ loc ≠ t := by
  intro he
  apply h
  rw [← he, String.data_append]
  rfl

/-- C10: on the Atom fallback path, when every child of every `entry` is
namespace-qualified in the Atom namespace, the non-namespaced lookups
`title`, `link`, `pubDate`, `published` all miss, so every produced record
has empty `title`, `link`, `date` and `slug` fields. -/
theorem parse_rss_atom_namespaced_empty_fields (root : XNode)
    (hitem : findall root "item" = [])
    (hne : findall root atomEntryTag ≠ [])
    (hns : ∀ it ∈ findall root atomEntryTag, ∀ c ∈ it.children,
      ∃ loc : String, c.tag = "\x7bhttp://www.w3.org/2005/Atom\x7d" ++ loc) :
    ∃ posts, parse_rss root = .ok posts ∧
      ∀ post ∈ posts,
        post.title = "" ∧ post.link = "" ∧ post.date = "" ∧ post.slug = "" := by
  have hsel : selectedItems root = findall root atomEntryTag := by
    unfold selectedItems
    rw [if_pos (by simp [hitem])]
  refine ⟨_, parse_rss_eq_map root (by rw [hsel]; exact hne), ?_⟩
  intro post hpost
  rw [hsel] at hpost
  obtain ⟨it, hit, rfl⟩ := List.mem_map.1 hpost
  have hchild : ∀ tg : String, tg.data.head? ≠ some '\x7b' →
      findChild it tg = none := by
    intro tg htg
    apply List.find?_eq_none.2
    intro c hc
    obtain ⟨loc, hloc⟩ := hns it hit c hc
    simp only [decide_eq_true_eq]
    rw [hloc]
    exact atomNs_tag_ne loc tg htg
  have htitle : text it "title" = "" := by
    simp [text, hchild "title" (by decide)]
  have hlink : text it "link" = "" := by
    simp [text, hchild "link" (by decide)]
  have hpub : text it "pubDate" = "" := by
    simp [text, hchild "pubDate" (by decide)]
  have hpub2 : text it "published" = "" := by
    simp [text, hchild "published" (by decide)]
  refine ⟨?_, ?_, ?_, ?_⟩
  · simpa [extractItem] using htitle
  · simpa [extractItem] using hlink
  · simp [extractItem, hpub, hpub2]
  · simp [extractItem, htitle, hlink]
    rfl

/-- Witness for C10 at `docAtom`: the produced record has empty `title`,
`link`, `date` and `slug`. -/
theorem parse_rss_atom_namespaced_empty_fields_witness :
    ∃ posts, parse_rss docAtom = .ok posts ∧
      ∀ post ∈ posts,
        post.title = "" ∧ post.link = "" ∧ post.date = "" ∧ post.slug = "" := by
  apply parse_rss_atom_namespaced_empty_fields docAtom rfl
    (fun h => List.noConfusion h)
  intro it hit c hc
  rcases List.mem_singleton.1 hit with rfl
  rcases List.mem_cons.1 hc with rfl | hc2
  · exact ⟨"title", rfl⟩
  · rcases List.mem_singleton.1 hc2 with rfl
    exact ⟨"content", rfl⟩

/-- C8: when `link` is non-empty the slug is the last non-empty `/`-separated
segment of `link` (whenever such a segment exists); when `link` is empty the
slug is the lowercased title with spaces replaced by hyphens; in particular
`https://example.substack.com/p/my-post` yields `my-post` and an empty link
with title `Hello World` yields `hello-world`. -/
theorem slug_from_spec (link title s : String) :
    (link ≠ "" →
      ((pySplit link '/').filter (fun p => ¬ p = "")).getLast? = some s →
      slug_from link title = s) ∧
    (link = "" →
      slug_from link title = pyReplaceChar (pyLower title) ' ' '-') ∧
    slug_from "https://example.substack.com/p/my-post" title = "my-post" ∧
    slug_from "" "Hello World" = "hello-world" := by
  refine ⟨?_, ?_, rfl, by decide⟩
  · intro hne hlast
    unfold slug_from
    rw [if_neg hne]
    simp only [hlast]
  · intro h
    simp [slug_from, h]

/-- Witness for C8 at the two concrete inputs named by the claim. -/
theorem slug_from_spec_witness :
    ("https://example.substack.com/p/my-post" : String) ≠ "" ∧
    ((pySplit "https://example.substack.com/p/my-post" '/').filter
      (fun p => ¬ p = "")).getLast? = some "my-post" ∧
    slug_from "https://example.substack.com/p/my-post" "T" = "my-post" ∧
    slug_from "" "Hello World" = "hello-world" := by
  refine ⟨by decide, by decide, ?_, ?_⟩
  · exact (slug_from_spec "https://example.substack.com/p/my-post" "T"
      "my-post").1 (by decide) (by decide)
  · exact (slug_from_spec "x" "y" "z").2.2.2
